import Mathlib

/-!
Verification development for the psp-packer repository.

The program repacks a PSP executable (a PRX ELF image, optionally embedded
inside a PBP container) into the compressed ~PSP module format.  Buffers are
modelled as `List Nat` of byte values; machine integers are `Nat` with
explicit `% 2 ^ w` where the source truncates; fallible Rust functions
returning `Result<_, Error>` become `Except Err _`.  Field and function names
follow `src/psp.rs`, `src/elf.rs` and `src/utils.rs`.
-/

set_option maxHeartbeats 1000000
set_option maxRecDepth 100000

deriving instance DecidableEq for Except

/-- Error taxonomy of `src/error.rs`.  `ioEof` stands for the `Error::Io`
case produced by a failed 4-byte magic read; `indexOutOfBounds` models the
Rust panic raised by `shdrs[e_shstrndx]` when the string-table index is out
of range (the Rust enum has no such variant because indexing panics instead
of returning an error); `cstrNoNul` is `Error::CStr`. -/
inductive Err where
  | AlreadyPacked
  | FromBytes (input_len : Nat) (expected_len : Option Nat)
  | FileTooSmall
  | NotElf
  | NotPrx
  | NoModuleInfo
  | KernelPbp
  | MixedPrivileges
  | NoSegments
  | BssNotFound
  | NotPbp
  | ioEof
  | Alignment (align : Nat) (addr : Nat)
  | FileTooBig
  | cstrNoNul
  | indexOutOfBounds
  deriving DecidableEq, Repr

/-- `ExecutableKind` of `src/psp.rs`. -/
inductive ExecutableKind where
  | UserPrx
  | KernelPrx
  | Pbp
  deriving DecidableEq, Repr

def ExecutableKind.is_prx : ExecutableKind → Bool
  | .UserPrx => true
  | .KernelPrx => true
  | .Pbp => false

def ExecutableKind.is_pbp : ExecutableKind → Bool
  | .Pbp => true
  | _ => false

/-- Little-endian byte-list to number (each list element is one byte,
reduced mod 256 as a `u8` is). -/
def bytesToNatLE : List Nat → Nat
  | [] => 0
  | b :: rest => b % 256 + 256 * bytesToNatLE rest

/-- Read `n` little-endian bytes of `l` starting at byte offset `off`. -/
def readLE (l : List Nat) (off n : Nat) : Nat :=
  bytesToNatLE ((l.drop off).take n)

def le16 (x : Nat) : List Nat := [x % 256, x / 256 % 256]

def le32 (x : Nat) : List Nat :=
  [x % 256, x / 256 % 256, x / 65536 % 256, x / 16777216 % 256]

def le64 (x : Nat) : List Nat := le32 (x % 4294967296) ++ le32 (x / 4294967296)

/-- Truncate or zero-pad `l` to exactly `n` bytes, reducing entries mod 256. -/
def padBytes (n : Nat) (l : List Nat) : List Nat :=
  (l.take n ++ List.replicate (n - l.length) 0).map (· % 256)

/-- Rust `slice.get(a..)`: defined iff `a ≤ len`. -/
def getFrom (l : List Nat) (a : Nat) : Option (List Nat) :=
  if a ≤ l.length then some (l.drop a) else none

/-- Rust `slice.get(a..b)`: defined iff `a ≤ b ∧ b ≤ len`. -/
def getRange (l : List Nat) (a b : Nat) : Option (List Nat) :=
  if a ≤ b ∧ b ≤ l.length then some ((l.drop a).take (b - a)) else none

/-- Rust `Option::ok_or`. -/
def okOr : Option α → Err → Except Err α
  | some a, _ => .ok a
  | none, e => .error e

/-- `Cursor<Vec<u8>>` write semantics: overwrite the bytes at `pos`,
extending the buffer if the data runs past the end; a write past the end of
the buffer zero-fills the gap first. -/
def cursorWrite (buf : List Nat) (pos : Nat) (data : List Nat) : List Nat :=
  if pos ≤ buf.length then
    buf.take pos ++ data ++ buf.drop (pos + data.length)
  else
    buf ++ List.replicate (pos - buf.length) 0 ++ data

/-- `CStr::from_bytes_until_nul`: the bytes strictly before the first nul,
or `none` when the slice holds no nul byte. -/
def cstrUntilNul : List Nat → Option (List Nat)
  | [] => none
  | b :: rest => if b = 0 then some [] else (cstrUntilNul rest).map (b :: ·)

/-- Rust `for (&src, dst) in src.iter().zip(dst.iter_mut()) { *dst = src }`:
replace the first `min` elements of `dst` by those of `src`. -/
def overwriteHead (src dst : List Nat) : List Nat :=
  src.take dst.length ++ dst.drop (min src.length dst.length)

/-! ## Byte-overlay framework (`src/utils.rs`)

A `RecordType` packages the data the generic `TryFromBytes` operations use:
the record byte size, the required alignment of borrowed views, the pure
byte decoding, and the type-specific `validate` acceptance predicate.  The
borrowed-view constructors additionally take the start address of the byte
range, as the Rust code checks the slice pointer's address. -/

structure RecordType (α : Type) where
  size : Nat
  align : Nat
  decode : List Nat → α
  validate : α → Except Err α

/-- `split_bytes` of `src/utils.rs`: `split_at_checked` with the
size-mismatch error carrying the input length and the expected length. -/
def split_bytes (bytes : List Nat) (expected_byte_len : Nat) :
    Except Err (List Nat × List Nat) :=
  if expected_byte_len ≤ bytes.length then
    .ok (bytes.take expected_byte_len, bytes.drop expected_byte_len)
  else
    .error (.FromBytes bytes.length (some expected_byte_len))

/-- Decode the `i`-th record of a packed array slice. -/
def decodeElem (R : RecordType α) (head : List Nat) (i : Nat) : α :=
  R.decode ((head.drop (R.size * i)).take R.size)

/-- Validate every element in order (the array constructors validate each
decoded record and fail on the first rejection). -/
def validateList (R : RecordType α) : List α → Except Err (List α)
  | [] => .ok []
  | x :: xs => do
    let v ← R.validate x
    let rest ← validateList R xs
    .ok (v :: rest)

/-- `TryFromBytes::from_bytes`: owned copy, no alignment requirement. -/
def from_bytes (R : RecordType α) (src : List Nat) : Except Err α := do
  let (head, _rest) ← split_bytes src R.size
  R.validate (R.decode head)

/-- `TryFromBytes::from_bytes_with_elems`: owned array copy. -/
def from_bytes_with_elems (R : RecordType α) (src : List Nat) (count : Nat) :
    Except Err (List α) := do
  let (head, _rest) ← split_bytes src (R.size * count)
  validateList R ((List.range count).map (decodeElem R head))

/-- `TryFromBytes::ref_from_bytes`: borrowed view, with the alignment check
performed after the length check, on the start address `addr` of the range. -/
def ref_from_bytes (R : RecordType α) (addr : Nat) (src : List Nat) :
    Except Err α := do
  let (head, _rest) ← split_bytes src R.size
  if addr % R.align ≠ 0 then
    throw (.Alignment R.align addr)
  R.validate (R.decode head)

/-- `TryFromBytes::ref_from_bytes_with_elems`. -/
def ref_from_bytes_with_elems (R : RecordType α) (addr : Nat) (src : List Nat)
    (count : Nat) : Except Err (List α) := do
  let (head, _rest) ← split_bytes src (R.size * count)
  if addr % R.align ≠ 0 then
    throw (.Alignment R.align addr)
  validateList R ((List.range count).map (decodeElem R head))

/-- `TryFromBytes::mut_from_bytes` (same checks as the shared borrow;
`validate_mut` delegates to `validate`). -/
def mut_from_bytes (R : RecordType α) (addr : Nat) (src : List Nat) :
    Except Err α := do
  let (head, _rest) ← split_bytes src R.size
  if addr % R.align ≠ 0 then
    throw (.Alignment R.align addr)
  R.validate (R.decode head)

/-- `TryFromBytes::mut_from_bytes_with_elems`. -/
def mut_from_bytes_with_elems (R : RecordType α) (addr : Nat) (src : List Nat)
    (count : Nat) : Except Err (List α) := do
  let (head, _rest) ← split_bytes src (R.size * count)
  if addr % R.align ≠ 0 then
    throw (.Alignment R.align addr)
  validateList R ((List.range count).map (decodeElem R head))

/-! ## ELF records (`src/elf.rs`) -/

def ELF_MAGIC : Nat := 0x464C457F
def ELF_TYPE_PRX : Nat := 0xFFA0

/-- `Elf32Ehdr`: the 52-byte ELF file header. -/
structure Elf32Ehdr where
  e_magic : Nat
  e_class : Nat
  e_data : Nat
  e_idver : Nat
  pad : List Nat
  e_type : Nat
  e_machine : Nat
  e_version : Nat
  e_entry : Nat
  e_phoff : Nat
  e_shoff : Nat
  e_flags : Nat
  e_ehsize : Nat
  e_phentsize : Nat
  e_phnum : Nat
  e_shentsize : Nat
  e_shnum : Nat
  e_shstrndx : Nat
  deriving DecidableEq, Repr

def Elf32Ehdr.decode (s : List Nat) : Elf32Ehdr where
  e_magic := readLE s 0 4
  e_class := readLE s 4 1
  e_data := readLE s 5 1
  e_idver := readLE s 6 1
  pad := ((s.drop 7).take 9).map (· % 256)
  e_type := readLE s 16 2
  e_machine := readLE s 18 2
  e_version := readLE s 20 4
  e_entry := readLE s 24 4
  e_phoff := readLE s 28 4
  e_shoff := readLE s 32 4
  e_flags := readLE s 36 4
  e_ehsize := readLE s 40 2
  e_phentsize := readLE s 42 2
  e_phnum := readLE s 44 2
  e_shentsize := readLE s 46 2
  e_shnum := readLE s 48 2
  e_shstrndx := readLE s 50 2

def Elf32Ehdr.validate (src : Elf32Ehdr) : Except Err Elf32Ehdr :=
  if src.e_magic ≠ ELF_MAGIC then .error .NotElf else .ok src

def ehdrRec : RecordType Elf32Ehdr := ⟨52, 4, Elf32Ehdr.decode, Elf32Ehdr.validate⟩

def Elf32Ehdr.fromBytes (src : List Nat) : Except Err Elf32Ehdr :=
  from_bytes ehdrRec src

def Elf32Ehdr.is_prx (h : Elf32Ehdr) : Bool := h.e_type == ELF_TYPE_PRX

/-- `Elf32Phdr`: a 32-byte program (segment) header. -/
structure Elf32Phdr where
  p_type : Nat
  p_offset : Nat
  p_vaddr : Nat
  p_paddr : Nat
  p_filesz : Nat
  p_memsz : Nat
  p_flags : Nat
  p_align : Nat
  deriving DecidableEq, Repr

def Elf32Phdr.decode (s : List Nat) : Elf32Phdr where
  p_type := readLE s 0 4
  p_offset := readLE s 4 4
  p_vaddr := readLE s 8 4
  p_paddr := readLE s 12 4
  p_filesz := readLE s 16 4
  p_memsz := readLE s 20 4
  p_flags := readLE s 24 4
  p_align := readLE s 28 4

def phdrRec : RecordType Elf32Phdr := ⟨32, 4, Elf32Phdr.decode, .ok⟩

def Elf32Phdr.fromBytesWithElems (src : List Nat) (count : Nat) :
    Except Err (List Elf32Phdr) :=
  from_bytes_with_elems phdrRec src count

/-- `Elf32Shdr`: a 40-byte section header. -/
structure Elf32Shdr where
  sh_name : Nat
  sh_type : Nat
  sh_flags : Nat
  sh_addr : Nat
  sh_offset : Nat
  sh_size : Nat
  sh_link : Nat
  sh_info : Nat
  sh_addralign : Nat
  sh_entsize : Nat
  deriving DecidableEq, Repr

def Elf32Shdr.decode (s : List Nat) : Elf32Shdr where
  sh_name := readLE s 0 4
  sh_type := readLE s 4 4
  sh_flags := readLE s 8 4
  sh_addr := readLE s 12 4
  sh_offset := readLE s 16 4
  sh_size := readLE s 20 4
  sh_link := readLE s 24 4
  sh_info := readLE s 28 4
  sh_addralign := readLE s 32 4
  sh_entsize := readLE s 36 4

def shdrRec : RecordType Elf32Shdr := ⟨40, 4, Elf32Shdr.decode, .ok⟩

def Elf32Shdr.fromBytesWithElems (src : List Nat) (count : Nat) :
    Except Err (List Elf32Shdr) :=
  from_bytes_with_elems shdrRec src count

/-! ## PSP records (`src/psp.rs`) -/

def PSP_HEADER_MAGIC : Nat := 0x5053507E
def PBP_HEADER_MAGIC : Nat := 0x50425000

/-- `PbpHeader`: the 40-byte PBP container header (ten `u32` fields). -/
structure PbpHeader where
  magic : Nat
  version : Nat
  sfo_offset : Nat
  icon0_offset : Nat
  icon1_offset : Nat
  pic0_offset : Nat
  pic1_offset : Nat
  snd0_offset : Nat
  prx_offset : Nat
  psar_offset : Nat
  deriving DecidableEq, Repr

def PbpHeader.decode (s : List Nat) : PbpHeader where
  magic := readLE s 0 4
  version := readLE s 4 4
  sfo_offset := readLE s 8 4
  icon0_offset := readLE s 12 4
  icon1_offset := readLE s 16 4
  pic0_offset := readLE s 20 4
  pic1_offset := readLE s 24 4
  snd0_offset := readLE s 28 4
  prx_offset := readLE s 32 4
  psar_offset := readLE s 36 4

def PbpHeader.validate (src : PbpHeader) : Except Err PbpHeader :=
  if src.magic ≠ PBP_HEADER_MAGIC then .error .NotPbp else .ok src

def pbpRec : RecordType PbpHeader := ⟨40, 4, PbpHeader.decode, PbpHeader.validate⟩

/-- The in-memory buffers of the program are heap allocations whose start
the model takes as aligned, so the borrowed-view constructors are applied
at address 0. -/
def PbpHeader.refFromBytes (src : List Nat) : Except Err PbpHeader :=
  ref_from_bytes pbpRec 0 src

def PbpHeader.mutFromBytes (src : List Nat) : Except Err PbpHeader :=
  mut_from_bytes pbpRec 0 src

/-- `SceModuleInfo`: 72 bytes on the 64-bit host the program targets
(2-byte attribute, two version bytes, 27-byte name, terminator, then five
pointer-width fields of 8 bytes each at offset 32). -/
structure SceModuleInfo where
  mod_attr : Nat
  mod_version_low : Nat
  mod_version_high : Nat
  mod_name : List Nat
  terminal : Nat
  gp_value : Nat
  ent_top : Nat
  ent_end : Nat
  stub_top : Nat
  stub_end : Nat
  deriving DecidableEq, Repr

def SceModuleInfo.decode (s : List Nat) : SceModuleInfo where
  mod_attr := readLE s 0 2
  mod_version_low := readLE s 2 1
  mod_version_high := readLE s 3 1
  mod_name := ((s.drop 4).take 27).map (· % 256)
  terminal := readLE s 31 1
  gp_value := readLE s 32 8
  ent_top := readLE s 40 8
  ent_end := readLE s 48 8
  stub_top := readLE s 56 8
  stub_end := readLE s 64 8

def modInfoRec : RecordType SceModuleInfo := ⟨72, 8, SceModuleInfo.decode, .ok⟩

def SceModuleInfo.fromBytes (src : List Nat) : Except Err SceModuleInfo :=
  from_bytes modInfoRec src

/-- `AsBytes::as_bytes` for `SceModuleInfo` (72-byte `repr(C)` layout). -/
def SceModuleInfo.toBytes (m : SceModuleInfo) : List Nat :=
  le16 m.mod_attr ++ [m.mod_version_low % 256, m.mod_version_high % 256] ++
  padBytes 27 m.mod_name ++ [m.terminal % 256] ++
  le64 m.gp_value ++ le64 m.ent_top ++ le64 m.ent_end ++
  le64 m.stub_top ++ le64 m.stub_end

/-! `ModInfoAttribute` flag values (a `u16` bitmask). -/

def KernelMode : Nat := 0x1000
def BootMode : Nat := 0x2000
def VshAPI : Nat := 0x0800
def AppAPI : Nat := 0x0600
def UsbWlanAPI : Nat := 0x0400
def MsAPI : Nat := 0x0200

/-- `bitflags`-style `contains`: all bits of `flag` are set in `attr`. -/
def attrContains (attr flag : Nat) : Bool := attr &&& flag == flag

/-- `DecryptMode` of `src/psp.rs`, with its `repr(u8)` discriminants. -/
inductive DecryptMode where
  | Kernel
  | Vsh
  | Standard
  | Updater
  | App
  | UsbWlan
  | Ms
  deriving DecidableEq, Repr

def DecryptMode.code : DecryptMode → Nat
  | .Kernel => 0x2
  | .Vsh => 0x3
  | .Standard => 0x4
  | .Updater => 0xC
  | .App => 0xE
  | .UsbWlan => 0xA
  | .Ms => 0xD

/-- `PspHeader`: the 336-byte (`0x150`) output header.  The source field
named like the Lean keyword for attribute declarations is called `attr`
here. -/
structure PspHeader where
  signature : Nat
  attr : Nat
  comp_attribute : Nat
  module_version_low : Nat
  module_version_high : Nat
  module_name : List Nat
  version : Nat
  num_segments : Nat
  elf_size : Nat
  psp_size : Nat
  entry : Nat
  module_info_offset : Nat
  bss_size : Nat
  seg_align : List Nat
  seg_addr : List Nat
  seg_size : List Nat
  reserved : List Nat
  devkit_version : Nat
  decrypt_mode : DecryptMode
  padding : Nat
  overlap_size : Nat
  key_data0 : List Nat
  comp_size : Nat
  _80 : Nat
  reserved2 : List Nat
  key_data1 : List Nat
  tag : Nat
  scheck : List Nat
  key_data2 : Nat
  oe_tag : Nat
  key_data3 : List Nat
  deriving DecidableEq, Repr

/-- `PspHeader::default`. -/
def PspHeader.default : PspHeader where
  signature := PSP_HEADER_MAGIC
  attr := 0
  comp_attribute := 0
  module_version_low := 0
  module_version_high := 0
  module_name := List.replicate 28 0
  version := 1
  num_segments := 0
  elf_size := 0
  psp_size := 0
  entry := 0
  module_info_offset := 0
  bss_size := 0
  seg_align := List.replicate 4 0
  seg_addr := List.replicate 4 0
  seg_size := List.replicate 4 0
  reserved := List.replicate 5 0
  devkit_version := 0
  decrypt_mode := .Standard
  padding := 0
  overlap_size := 0
  key_data0 := List.replicate 48 0
  comp_size := 0
  _80 := 0x80
  reserved2 := List.replicate 2 0
  key_data1 := List.replicate 16 0
  tag := 0
  scheck := List.replicate 88 0
  key_data2 := 0
  oe_tag := 0
  key_data3 := List.replicate 28 0

/-- Serialize a `[u16; 4]` field. -/
def words16x4 (l : List Nat) : List Nat :=
  le16 (l.getD 0 0) ++ le16 (l.getD 1 0) ++ le16 (l.getD 2 0) ++ le16 (l.getD 3 0)

/-- Serialize a `[u32; 4]` field. -/
def words32x4 (l : List Nat) : List Nat :=
  le32 (l.getD 0 0) ++ le32 (l.getD 1 0) ++ le32 (l.getD 2 0) ++ le32 (l.getD 3 0)

/-- Serialize a `[u32; 5]` field. -/
def words32x5 (l : List Nat) : List Nat := words32x4 l ++ le32 (l.getD 4 0)

/-- Serialize a `[u32; 2]` field. -/
def words32x2 (l : List Nat) : List Nat := le32 (l.getD 0 0) ++ le32 (l.getD 1 0)

/-- `AsBytes::as_bytes` for `PspHeader`: the 336-byte `repr(C)` layout laid
out field by field (the layout has no implicit padding). -/
def PspHeader.toBytes (h : PspHeader) : List Nat :=
  le32 h.signature ++ le16 h.attr ++ le16 h.comp_attribute ++
  [h.module_version_low % 256, h.module_version_high % 256] ++
  padBytes 28 h.module_name ++
  [h.version % 256, h.num_segments % 256] ++
  le32 h.elf_size ++ le32 h.psp_size ++ le32 h.entry ++
  le32 h.module_info_offset ++ le32 h.bss_size ++
  words16x4 h.seg_align ++ words32x4 h.seg_addr ++ words32x4 h.seg_size ++
  words32x5 h.reserved ++ le32 h.devkit_version ++
  [h.decrypt_mode.code, h.padding % 256] ++ le16 h.overlap_size ++
  padBytes 48 h.key_data0 ++ le32 h.comp_size ++ le32 h._80 ++
  words32x2 h.reserved2 ++ padBytes 16 h.key_data1 ++ le32 h.tag ++
  padBytes 88 h.scheck ++ le32 h.key_data2 ++ le32 h.oe_tag ++
  padBytes 28 h.key_data3

/-- `PspHeader::set_decript_mode` (`src/psp.rs` lines 531-561). -/
def set_decript_mode (h : PspHeader) (is_pbp : Bool) : PspHeader :=
  if attrContains h.attr KernelMode then
    { h with
      devkit_version :=
        if attrContains h.attr BootMode then 0x06060110 else 0x05070110,
      decrypt_mode := .Kernel }
  else if is_pbp then
    if attrContains h.attr VshAPI then
      { h with decrypt_mode := .Updater }
    else if attrContains h.attr AppAPI then
      { h with decrypt_mode := .App }
    else if attrContains h.attr UsbWlanAPI then
      { h with decrypt_mode := .UsbWlan }
    else
      { h with attr := h.attr ||| MsAPI,
               decrypt_mode := .Ms,
               devkit_version := 0x06020010 }
  else
    if attrContains h.attr VshAPI then
      { h with decrypt_mode := .Vsh }
    else
      { h with devkit_version := 0x05070210, decrypt_mode := .Standard }

def default_psp_tag_handler : ExecutableKind → Nat
  | .UserPrx => 0x457B06F0
  | .KernelPrx => 0xDADADAF0
  | .Pbp => 0xADF305F0

def default_oe_tag_handler : ExecutableKind → Nat
  | .UserPrx => 0x8555ABF2
  | .KernelPrx => 0x55668D96
  | .Pbp => 0x7316308C

/-! ## The compression pipeline (`UnkPspExecutable::compress_impl`)

The pipeline is written as a composition of stage functions; each stage is a
contiguous line range of `compress_impl` in `src/psp.rs` (noted on each
definition).  The gzip codec and the random key-filler source are external
effects and enter the model as parameters: `gzip` maps the byte range handed
to the compressor to the compressed stream, `rnd` is the pseudo-random byte
source read sequentially into the three key-filler regions. -/

/-- What lines 57-76 establish: classification, embedded-image offset and
the `exec_size` variable (the whole-file length for a standalone module;
`psar_offset - prx_offset`, a `u32` wrapping subtraction, for a PBP). -/
structure ClassifyOut where
  kind : ExecutableKind
  exec_offset : Nat
  exec_size : Nat
  deriving DecidableEq, Repr

/-- Lines 57-76: read the 4-byte magic, reject already-packed input, parse
the PBP header when the PBP magic matches. -/
def classifyExec (exec : List Nat) : Except Err ClassifyOut := do
  if exec.length < 4 then
    throw .ioEof
  let file_magic := readLE exec 0 4
  if file_magic = PSP_HEADER_MAGIC then
    throw .AlreadyPacked
  if file_magic = PBP_HEADER_MAGIC then
    let pbp ← PbpHeader.refFromBytes exec
    pure ⟨.Pbp, pbp.prx_offset,
          (pbp.psar_offset + 4294967296 - pbp.prx_offset) % 4294967296⟩
  else
    pure ⟨.UserPrx, 0, exec.length⟩

/-- Lines 78-94: slice `exec[exec_offset..exec_size]` (note: the source uses
`exec_size` as the range end), parse the ELF header from it, and reject a
standalone input that is not marked as a PRX. -/
def parseEmbeddedEhdr (exec : List Nat) (c : ClassifyOut) :
    Except Err Elf32Ehdr := do
  let elf_slice ← okOr (getRange exec c.exec_offset c.exec_size) .FileTooSmall
  let eh ← Elf32Ehdr.fromBytes elf_slice
  if c.kind.is_prx && !eh.is_prx then
    throw .NotPrx
  pure eh

/-- Parse the ELF header found at absolute offset `elf_start` (the common
`exec.get(elf_start..)` + `Elf32Ehdr::from_bytes` prologue of the helper
functions of `src/psp.rs`). -/
def ehdrAt (exec : List Nat) (elf_start : Nat) : Except Err Elf32Ehdr := do
  let elf_slice ← okOr (getFrom exec elf_start) .FileTooSmall
  Elf32Ehdr.fromBytes elf_slice

/-- Parse `count` program headers from the table at
`elf_start + e_phoff` (shared by `find_module_info_phdr`, which passes
`e_phnum`, and `read_segments_bss_info`, which passes `num_segments`). -/
def phdrTable (exec : List Nat) (elf_start count : Nat) :
    Except Err (List Elf32Phdr) := do
  let eh ← ehdrAt exec elf_start
  let phdr_slice ← okOr (getFrom exec (elf_start + eh.e_phoff)) .FileTooSmall
  Elf32Phdr.fromBytesWithElems phdr_slice count

/-- Parse the whole section-header table at `elf_start + e_shoff` with
`e_shnum` entries. -/
def shdrTable (exec : List Nat) (elf_start : Nat) :
    Except Err (List Elf32Shdr) := do
  let eh ← ehdrAt exec elf_start
  let shdr_slice ← okOr (getFrom exec (elf_start + eh.e_shoff)) .FileTooSmall
  Elf32Shdr.fromBytesWithElems shdr_slice eh.e_shnum

/-- The `for` loop of `find_module_info_phdr`: first program header of type
1 whose virtual and physical addresses differ. -/
def findLoadableDiff : List Elf32Phdr → Option Elf32Phdr
  | [] => none
  | p :: rest =>
    if p.p_type = 1 ∧ p.p_vaddr ≠ p.p_paddr then some p
    else findLoadableDiff rest

/-- `find_module_info_phdr` (`src/psp.rs` lines 610-627). -/
def find_module_info_phdr (exec : List Nat) (elf_start : Nat) :
    Except Err (Option Elf32Phdr) := do
  let eh ← ehdrAt exec elf_start
  let phdrs ← phdrTable exec elf_start eh.e_phnum
  pure (findLoadableDiff phdrs)

/-- Byte values of the C string literal `.rodata.sceModuleInfo`. -/
def rodataSceModuleInfoName : List Nat :=
  [46, 114, 111, 100, 97, 116, 97, 46, 115, 99, 101, 77, 111, 100,
   117, 108, 101, 73, 110, 102, 111]

/-- Byte values of `.bss`. -/
def bssBytes : List Nat := [46, 98, 115, 115]

/-- The `for` loop of `find_segment`: resolve each section name through the
string table as a nul-terminated C string and return the first section whose
name equals `seg_name` exactly.  A name offset past the end of the buffer is
(oddly) reported as `BssNotFound` by the source; a missing nul terminator is
the `CStr` conversion error. -/
def findSegLoop (exec : List Nat) (strtab_offset : Nat) (seg_name : List Nat) :
    List Elf32Shdr → Except Err (Option Elf32Shdr)
  | [] => pure none
  | shdr :: rest => do
    let name_slice ← okOr (getFrom exec (strtab_offset + shdr.sh_name)) .BssNotFound
    let name ← okOr (cstrUntilNul name_slice) .cstrNoNul
    if name = seg_name then
      pure (some shdr)
    else
      findSegLoop exec strtab_offset seg_name rest

/-- `find_segment` (`src/psp.rs` lines 667-690). -/
def find_segment (exec : List Nat) (elf_start : Nat) (seg_name : List Nat) :
    Except Err (Option Elf32Shdr) := do
  let eh ← ehdrAt exec elf_start
  let shdrs ← shdrTable exec elf_start
  let strx ← okOr (shdrs.get? eh.e_shstrndx) .indexOutOfBounds
  let strtab_offset := elf_start + strx.sh_offset
  findSegLoop exec strtab_offset seg_name shdrs

/-- Lines 99-100: the locator's privilege signal is the top bit of the
matching segment's physical address; no segment match means non-privileged. -/
def isKernelOf : Option Elf32Phdr → Bool
  | some phdr => phdr.p_paddr &&& 0x80000000 != 0
  | none => false

/-- Lines 108-113: the resolution `match` over the two discovery results. -/
def modInfoOffOf : Option Elf32Phdr → Option Elf32Shdr → Except Err Nat
  | some phdr, _ => .ok phdr.p_paddr
  | none, some shdr => .ok shdr.sh_offset
  | none, none => .error .NoModuleInfo

/-- Lines 114-116: read the module metadata record at `mod_info_start`. -/
def parseModInfoAt (exec : List Nat) (mod_info_start : Nat) :
    Except Err SceModuleInfo := do
  let mod_info_slice ← okOr (getFrom exec mod_info_start) .FileTooSmall
  SceModuleInfo.fromBytes mod_info_slice

/-- Output of the locator stage (lines 96-123). -/
structure LocateOut where
  kind : ExecutableKind
  mod_info_off : Nat
  mod_info_start : Nat
  mod_info : SceModuleInfo
  is_kernel : Bool
  deriving DecidableEq, Repr

/-- Lines 96-123: both discovery strategies, the kernel-PBP rejection, the
resolution of the metadata offset (masked with `0x7FFFFFFF` before use as a
buffer position), the metadata parse and the mixed-privileges cross-check. -/
def locateModInfo (exec : List Nat) (c : ClassifyOut) : Except Err LocateOut := do
  let mod_info_phdr ← find_module_info_phdr exec c.exec_offset
  let mod_info_shdr ← find_segment exec c.exec_offset rodataSceModuleInfoName
  let is_kernel_module := isKernelOf mod_info_phdr
  if is_kernel_module && c.kind.is_pbp then
    throw .KernelPbp
  let kind := if is_kernel_module then ExecutableKind.KernelPrx else c.kind
  let mod_info_off ← modInfoOffOf mod_info_phdr mod_info_shdr
  let mod_info_start := c.exec_offset + (mod_info_off &&& 0x7FFFFFFF)
  let mod_info ← parseModInfoAt exec mod_info_start
  if (is_kernel_module && !attrContains mod_info.mod_attr KernelMode) ||
     (!is_kernel_module && attrContains mod_info.mod_attr KernelMode) then
    throw .MixedPrivileges
  pure ⟨kind, mod_info_off, mod_info_start, mod_info, is_kernel_module⟩

/-- The per-segment fill loop of `read_segments_bss_info` (lines 641-645):
`seg_align[i] = p_align as u16`, `seg_addr[i] = p_vaddr`,
`seg_size[i] = p_memsz` for the `i`-th parsed header. -/
def fillSegAux (h : PspHeader) (i : Nat) : List Elf32Phdr → PspHeader
  | [] => h
  | phdr :: rest =>
    fillSegAux
      { h with
        seg_align := h.seg_align.set i (phdr.p_align % 65536),
        seg_addr := h.seg_addr.set i phdr.p_vaddr,
        seg_size := h.seg_size.set i phdr.p_memsz }
      (i + 1) rest

def fillSegArrays (h : PspHeader) (phdrs : List Elf32Phdr) : PspHeader :=
  fillSegAux h 0 phdrs

/-- The `.bss` scan of `read_segments_bss_info` (lines 654-664): for each
section, read the 4 bytes of the string table at its name offset and stop at
the first section whose 4-byte window equals `.bss`, storing its size. -/
def findBss (exec : List Nat) (strtab_offset : Nat) :
    List Elf32Shdr → PspHeader → Except Err PspHeader
  | [], _ => throw .BssNotFound
  | shdr :: rest, h => do
    let name ← okOr
      (getRange exec (strtab_offset + shdr.sh_name)
        (strtab_offset + shdr.sh_name + 4)) .FileTooSmall
    if name = bssBytes then
      pure { h with bss_size := shdr.sh_size }
    else
      findBss exec strtab_offset rest h

/-- `read_segments_bss_info` (`src/psp.rs` lines 629-665).  The Rust
`shdrs[e_shstrndx]` indexing panic is modelled as `indexOutOfBounds`. -/
def read_segments_bss_info (exec : List Nat) (elf_start : Nat) (h : PspHeader) :
    Except Err PspHeader := do
  let eh ← ehdrAt exec elf_start
  let phdrs ← phdrTable exec elf_start h.num_segments
  let h := fillSegArrays h phdrs
  let shdrs ← shdrTable exec elf_start
  let strx ← okOr (shdrs.get? eh.e_shstrndx) .indexOutOfBounds
  let strtab_offset := elf_start + strx.sh_offset
  findBss exec strtab_offset shdrs h

/-- Lines 125-151: build the output header from the metadata record and the
ELF header, check the segment count, fill the per-segment arrays and the
`.bss` size, and derive the decrypt mode. -/
def buildPspHeader (exec : List Nat) (c : ClassifyOut) (eh : Elf32Ehdr)
    (l : LocateOut) : Except Err PspHeader := do
  let h : PspHeader :=
    { PspHeader.default with
      attr := l.mod_info.mod_attr,
      module_info_offset := l.mod_info_off,
      comp_attribute := 1,
      module_version_low := l.mod_info.mod_version_low,
      module_version_high := l.mod_info.mod_version_high }
  let h := { h with module_name := overwriteHead l.mod_info.mod_name h.module_name }
  let h := { h with elf_size := c.exec_size % 4294967296, entry := eh.e_entry }
  let num_segments ←
    match eh.e_phnum with
    | 0 => throw .NoSegments
    | x => if 4 < x then throw .NoSegments else pure x
  let h := { h with num_segments := num_segments }
  let h ← read_segments_bss_info exec c.exec_offset h
  pure (set_decript_mode h l.kind.is_pbp)

/-- Lines 153-157: write the (possibly updated) metadata attribute back into
the embedded image before compression. -/
def writeBackModInfo (exec : List Nat) (l : LocateOut) (attr : Nat) :
    Except Err (List Nat) :=
  let mod_info := { l.mod_info with mod_attr := attr }
  if l.mod_info_start + 72 ≤ exec.length then
    .ok (cursorWrite exec l.mod_info_start mod_info.toBytes)
  else
    .error .FileTooSmall

/-- Lines 153-216: metadata write-back, tag selection, key filler,
compression of `exec[exec_offset..exec_size]` behind a 336-byte reserved
header region, header serialization, and — for a PBP — appending the
trailing assets, writing the preamble at cursor position 0 (a `Cursor`
overwrite) and patching `psar_offset` (at byte offset 36) to
`exec_offset + compressed-stream length`. -/
def assembleOutput (gzip : List Nat → List Nat) (rnd : Nat → Nat)
    (psp_tag oe_tag : Option Nat) (exec : List Nat) (c : ClassifyOut)
    (l : LocateOut) (h : PspHeader) : Except Err (List Nat × ExecutableKind) := do
  let execW ← writeBackModInfo exec l h.attr
  let h := { h with
    tag := psp_tag.getD (default_psp_tag_handler l.kind),
    oe_tag := oe_tag.getD (default_oe_tag_handler l.kind),
    key_data0 := (List.range 48).map fun i => rnd i % 256,
    key_data1 := (List.range 16).map fun i => rnd (48 + i) % 256,
    key_data3 := (List.range 28).map fun i => rnd (64 + i) % 256 }
  let elf_slice ← okOr (getRange execW c.exec_offset c.exec_size) .FileTooSmall
  let comp := gzip elf_slice
  let new_size := 336 + comp.length
  let h := { h with
    comp_size := comp.length % 4294967296,
    psp_size := new_size % 4294967296 }
  let buf := cursorWrite (List.replicate 336 0 ++ comp) 0 h.toBytes
  if l.kind.is_pbp then
    let pbp_header ← okOr (getRange execW 0 c.exec_offset) .FileTooSmall
    let pbp_icons ← okOr (getFrom execW (c.exec_offset + c.exec_size)) .FileTooSmall
    let buf := buf ++ pbp_icons
    let buf := cursorWrite buf 0 pbp_header
    let _pbp ← PbpHeader.mutFromBytes buf
    let buf := cursorWrite buf 36 (le32 ((c.exec_offset + comp.length) % 4294967296))
    pure (buf, l.kind)
  else
    pure (buf, l.kind)

/-- `compress_impl` (`src/psp.rs` lines 54-217), as the composition of the
stage functions above. -/
def compress_impl (gzip : List Nat → List Nat) (rnd : Nat → Nat)
    (psp_tag oe_tag : Option Nat) (exec : List Nat) :
    Except Err (List Nat × ExecutableKind) := do
  let c ← classifyExec exec
  let eh ← parseEmbeddedEhdr exec c
  let l ← locateModInfo exec c
  let h ← buildPspHeader exec c eh l
  assembleOutput gzip rnd psp_tag oe_tag exec c l h

/-! ## Concrete inputs used by witnesses and counterexamples -/

/-- A 52-byte ELF header with the given type, entry point, table offsets and
counts (class/data/id-version 1, machine 8 = MIPS, version 1). -/
def ehdrBytes (etype entry phoff shoff phnum shnum shstrndx : Nat) : List Nat :=
  le32 ELF_MAGIC ++ [1, 1, 1] ++ List.replicate 9 0 ++ le16 etype ++ le16 8 ++
  le32 1 ++ le32 entry ++ le32 phoff ++ le32 shoff ++ le32 0 ++
  le16 52 ++ le16 32 ++ le16 phnum ++ le16 40 ++ le16 shnum ++ le16 shstrndx

def phdrBytes (ptype offset vaddr paddr filesz memsz flags algn : Nat) : List Nat :=
  le32 ptype ++ le32 offset ++ le32 vaddr ++ le32 paddr ++ le32 filesz ++
  le32 memsz ++ le32 flags ++ le32 algn

def shdrBytes (name stype flags addr offset size link info algn entsize : Nat) :
    List Nat :=
  le32 name ++ le32 stype ++ le32 flags ++ le32 addr ++ le32 offset ++
  le32 size ++ le32 link ++ le32 info ++ le32 algn ++ le32 entsize

/-- A 72-byte module metadata record with the given attribute bitmask,
version 1.1, name `TESTMOD`, and null pointers. -/
def modInfoBytes (attr : Nat) : List Nat :=
  le16 attr ++ [1, 1] ++ ([84, 69, 83, 84, 77, 79, 68] ++ List.replicate 20 0) ++
  [0] ++ List.replicate 40 0

/-- String table `.bss\0.strtab\0` (13 bytes; name offsets 0 and 5). -/
def strtabBss : List Nat :=
  [46, 98, 115, 115, 0, 46, 115, 116, 114, 116, 97, 98, 0]

/-- String table `.bss\0.strtab\0.rodata.sceModuleInfo\0` (35 bytes; name
offsets 0, 5 and 13). -/
def strtabRodata : List Nat :=
  strtabBss ++ rodataSceModuleInfoName ++ [0]

/-- A minimal valid standalone PRX: one loadable segment whose physical
address 180 differs from its virtual address 256 and points at the metadata
record, a `.bss` section of size 256, and a string-table section; 252 bytes. -/
def prxInput : List Nat :=
  ehdrBytes ELF_TYPE_PRX 0x1000 52 84 1 2 1 ++
  phdrBytes 1 0 256 180 80 96 5 16 ++
  shdrBytes 0 8 3 0 0 256 0 0 4 0 ++
  shdrBytes 5 3 0 0 164 13 0 0 1 0 ++
  strtabBss ++ [0, 0, 0] ++ modInfoBytes 0

/-- A minimal valid PBP container: 40-byte PBP header with
`prx_offset = 40` and `psar_offset = 300`, the 252-byte embedded image of
`prxInput` at offset 40, 8 bytes of padding, and 8 trailing asset bytes;
308 bytes in total. -/
def pbpInput : List Nat :=
  le32 PBP_HEADER_MAGIC ++ le32 0x10000 ++ le32 40 ++ le32 40 ++ le32 40 ++
  le32 40 ++ le32 40 ++ le32 40 ++ le32 40 ++ le32 300 ++
  prxInput ++ List.replicate 8 0 ++ List.replicate 8 9

/-- A standalone PRX whose only loadable segment has equal virtual and
physical addresses (so the segment strategy finds nothing) and whose
`.rodata.sceModuleInfo` section header carries file offset
`0x80000000 + 240` — the top bit set; the metadata record sits at 240;
312 bytes. -/
def prxShMask : List Nat :=
  ehdrBytes ELF_TYPE_PRX 0x1000 52 84 1 3 1 ++
  phdrBytes 1 0 256 256 80 96 5 16 ++
  shdrBytes 0 8 3 0 0 256 0 0 4 0 ++
  shdrBytes 5 3 0 0 204 35 0 0 1 0 ++
  shdrBytes 13 1 2 0 2147483888 72 0 0 4 0 ++
  strtabRodata ++ [0] ++ modInfoBytes 0

/-- A standalone PRX with segment count 0 (metadata located through the
`.rodata.sceModuleInfo` section at offset 240); 312 bytes. -/
def prxPh0 : List Nat :=
  ehdrBytes ELF_TYPE_PRX 0x1000 52 84 0 3 1 ++
  List.replicate 32 0 ++
  shdrBytes 0 8 3 0 0 256 0 0 4 0 ++
  shdrBytes 5 3 0 0 204 35 0 0 1 0 ++
  shdrBytes 13 1 2 0 240 72 0 0 4 0 ++
  strtabRodata ++ [0] ++ modInfoBytes 0

/-- A standalone PRX with segment count 5 (five loadable segments with equal
virtual and physical addresses, metadata located through the section at
offset 368); 440 bytes. -/
def prxPh5 : List Nat :=
  ehdrBytes ELF_TYPE_PRX 0x1000 52 212 5 3 1 ++
  phdrBytes 1 0 0 0 0 0 5 16 ++ phdrBytes 1 0 0 0 0 0 5 16 ++
  phdrBytes 1 0 0 0 0 0 5 16 ++ phdrBytes 1 0 0 0 0 0 5 16 ++
  phdrBytes 1 0 0 0 0 0 5 16 ++
  shdrBytes 0 8 3 0 0 256 0 0 4 0 ++
  shdrBytes 5 3 0 0 332 35 0 0 1 0 ++
  shdrBytes 13 1 2 0 368 72 0 0 4 0 ++
  strtabRodata ++ [0] ++ modInfoBytes 0

/-- Like `prxInput`, but its first section is named `.bssX` — no section is
named exactly `.bss`; 252 bytes. -/
def prxBssX : List Nat :=
  ehdrBytes ELF_TYPE_PRX 0x1000 52 84 1 2 1 ++
  phdrBytes 1 0 256 180 80 96 5 16 ++
  shdrBytes 0 8 3 0 0 256 0 0 4 0 ++
  shdrBytes 6 3 0 0 164 14 0 0 1 0 ++
  ([46, 98, 115, 115, 88, 0] ++ [46, 115, 116, 114, 116, 97, 98, 0]) ++
  [0, 0] ++ modInfoBytes 0

/-- Like `prxInput`, but the matching segment's physical address has the top
bit set (`0x80000000 + 180`) while the metadata attribute bitmask does not
carry the kernel-mode bit: the privilege signals disagree. -/
def prxMixed : List Nat :=
  ehdrBytes ELF_TYPE_PRX 0x1000 52 84 1 2 1 ++
  phdrBytes 1 0 256 2147483828 80 96 5 16 ++
  shdrBytes 0 8 3 0 0 256 0 0 4 0 ++
  shdrBytes 5 3 0 0 164 13 0 0 1 0 ++
  strtabBss ++ [0, 0, 0] ++ modInfoBytes 0

/-- Stub compressor returning a fixed 3-byte stream. -/
def gzipConst3 : List Nat → List Nat := fun _ => [1, 2, 3]

/-- Stub compressor returning a fixed 10-byte stream. -/
def gzipTen : List Nat → List Nat := fun _ => List.replicate 10 1

/-- Probing compressor whose 1-byte output records the length of the byte
range it was handed. -/
def gzipLenProbe : List Nat → List Nat := fun l => [l.length]

/-- Fixed random source. -/
def rndZero : Nat → Nat := fun _ => 0

/-! ## Claim-side definitions

These definitions follow the words of the specification claims (not the
source) and exist to be compared against the source-derived definitions
above. -/

/-- C1 claim table, decrypt-mode component: the numeric decrypt-mode
selected by the claimed priority order for a given classification
(package or not) and metadata attribute bitmask. -/
def claimDecryptModeCode (is_package : Bool) (attr : Nat) : Nat :=
  if attrContains attr KernelMode then 0x2
  else if is_package then
    if attrContains attr VshAPI then 0xC
    else if attrContains attr AppAPI then 0xE
    else if attrContains attr UsbWlanAPI then 0xA
    else 0xD
  else if attrContains attr VshAPI then 0x3
  else 0x4

/-- C1 claim table, devkit-version component: the constant the claim fixes
for a branch, or `none` where the claim leaves the field alone. -/
def claimDevkitVersion (is_package : Bool) (attr : Nat) : Option Nat :=
  if attrContains attr KernelMode then
    some (if attrContains attr BootMode then 0x06060110 else 0x05070110)
  else if is_package then
    if attrContains attr VshAPI then none
    else if attrContains attr AppAPI then none
    else if attrContains attr UsbWlanAPI then none
    else some 0x06020010
  else if attrContains attr VshAPI then none
  else some 0x05070210

/-- C1 claim table, attribute component: the memory-stick API bit is
force-set exactly in the package branch with no matching API category. -/
def claimAttrAfter (is_package : Bool) (attr : Nat) : Nat :=
  if ¬ attrContains attr KernelMode ∧ is_package = true ∧
     ¬ attrContains attr VshAPI ∧ ¬ attrContains attr AppAPI ∧
     ¬ attrContains attr UsbWlanAPI
  then attr ||| MsAPI
  else attr

/-! ## Named stage values used by witnesses

Concrete intermediate values of the pipeline on the inputs above, extracted
by running the stage functions (the `getD` defaults are never taken; the
witness theorems prove the stage results are these values). -/

def dfltModInfo : SceModuleInfo := ⟨0, 0, 0, [], 0, 0, 0, 0, 0, 0⟩

def dfltLocateOut : LocateOut := ⟨.UserPrx, 0, 0, dfltModInfo, false⟩

/-- Classification of `prxInput`. -/
def prxCls : ClassifyOut := ⟨.UserPrx, 0, 252⟩

/-- Locator output on `prxInput`. -/
def prxLoc : LocateOut :=
  ((locateModInfo prxInput prxCls).toOption).getD dfltLocateOut

/-- Classification of `pbpInput`. -/
def pbpCls : ClassifyOut := ⟨.Pbp, 40, 260⟩

/-- Embedded ELF header of `pbpInput`. -/
def pbpEh : Elf32Ehdr :=
  ((parseEmbeddedEhdr pbpInput pbpCls).toOption).getD (Elf32Ehdr.decode [])

/-- Locator output on `pbpInput`. -/
def pbpLoc : LocateOut :=
  ((locateModInfo pbpInput pbpCls).toOption).getD dfltLocateOut

/-- Synthesized header for `pbpInput`. -/
def pbpHdrB : PspHeader :=
  ((buildPspHeader pbpInput pbpCls pbpEh pbpLoc).toOption).getD PspHeader.default

/-- `pbpInput` after the metadata attribute write-back. -/
def pbpExecW : List Nat :=
  ((writeBackModInfo pbpInput pbpLoc pbpHdrB.attr).toOption).getD []

/-- The byte range handed to the compressor for `pbpInput`. -/
def pbpSlice : List Nat := (getRange pbpExecW 40 260).getD []

/-- Reassembled output for `pbpInput` under the 10-byte compressor stub. -/
def c6Buf : List Nat :=
  ((assembleOutput gzipTen rndZero none none pbpInput pbpCls pbpLoc
      pbpHdrB).map Prod.fst |>.toOption).getD []

/-- Compressed output of `prxInput` under the 3-byte compressor stub. -/
def c10Buf : List Nat :=
  ((compress_impl gzipConst3 rndZero none none prxInput).map Prod.fst
    |>.toOption).getD []

/-- A header whose segment count is 1, as handed to
`read_segments_bss_info` on `prxInput`. -/
def c8H0 : PspHeader := { PspHeader.default with num_segments := 1 }

/-- Result of `read_segments_bss_info` on `prxInput`. -/
def c8SegHdr : PspHeader :=
  ((read_segments_bss_info prxInput 0 c8H0).toOption).getD PspHeader.default

/-- Parsed section headers of `prxBssX`. -/
def shdrsBssX : List Elf32Shdr :=
  [⟨0, 8, 3, 0, 0, 256, 0, 0, 4, 0⟩, ⟨6, 3, 0, 0, 164, 14, 0, 0, 1, 0⟩]

/-! ## Claim theorems -/

/-- C1: the decrypt-mode and devkit-version fields written by
`set_decript_mode` are a pure function of (classification, kernel-mode bit,
boot-mode bit, API-category bits), selected by the claimed priority order:
kernel-mode gives Kernel (0x2) with devkit 0x06060110 (boot) or 0x05070110;
else a package gives Updater (0xC) for the VSH bit, App (0xE) for the
app-API bits, UsbWlan (0xA) for the USB/WLAN bit, and otherwise force-sets
the memory-stick bit and gives Ms (0xD) with devkit 0x06020010; else Vsh
(0x3) for the VSH bit and otherwise Standard (0x4) with devkit 0x05070210.
Branches for which the claim fixes no devkit constant leave the field
unchanged. -/
theorem c1_mode_derivation_table (h : PspHeader) (is_pbp : Bool) :
    (set_decript_mode h is_pbp).decrypt_mode.code =
      claimDecryptModeCode is_pbp h.attr ∧
    (set_decript_mode h is_pbp).devkit_version =
      (claimDevkitVersion is_pbp h.attr).getD h.devkit_version ∧
    (set_decript_mode h is_pbp).attr = claimAttrAfter is_pbp h.attr := by
  unfold set_decript_mode claimDecryptModeCode claimDevkitVersion claimAttrAfter
  by_cases hk : attrContains h.attr KernelMode <;>
    by_cases hb : attrContains h.attr BootMode <;>
    cases is_pbp <;>
    by_cases hv : attrContains h.attr VshAPI <;>
    by_cases ha : attrContains h.attr AppAPI <;>
    by_cases hu : attrContains h.attr UsbWlanAPI <;>
    simp [hk, hb, hv, ha, hu, DecryptMode.code]

/-- C4: for a byte range shorter than the requested record size (record
size times element count for the array forms), every overlay-construction
operation of the framework — owned, borrowed immutable, borrowed mutable,
single or array, at any address — fails with the size-mismatch error
carrying the true input length and the exact expected byte length (the
length check precedes the alignment check, and the model functions are
total, so no out-of-bounds read or panic is possible). -/
theorem c4_short_input_size_mismatch {α : Type} (R : RecordType α)
    (addr count : Nat) (src : List Nat)
    (hs : src.length < R.size) (hc : src.length < R.size * count) :
    from_bytes R src = .error (.FromBytes src.length (some R.size)) ∧
    ref_from_bytes R addr src = .error (.FromBytes src.length (some R.size)) ∧
    mut_from_bytes R addr src = .error (.FromBytes src.length (some R.size)) ∧
    from_bytes_with_elems R src count =
      .error (.FromBytes src.length (some (R.size * count))) ∧
    ref_from_bytes_with_elems R addr src count =
      .error (.FromBytes src.length (some (R.size * count))) ∧
    mut_from_bytes_with_elems R addr src count =
      .error (.FromBytes src.length (some (R.size * count))) := by
  have h1 : ¬ (R.size ≤ src.length) := by omega
  have h2 : ¬ (R.size * count ≤ src.length) := by omega
  refine ⟨?_, ?_, ?_, ?_, ?_, ?_⟩ <;>
    simp [from_bytes, ref_from_bytes, mut_from_bytes, from_bytes_with_elems,
      ref_from_bytes_with_elems, mut_from_bytes_with_elems, split_bytes,
      h1, h2, Bind.bind, Except.bind]

/-- C4 witness: a 10-byte range requested as a 52-byte ELF header record
(single, and as a 2-element array) fails with the size-mismatch error in
all six constructor forms, at the odd address 1. -/
theorem c4_short_input_size_mismatch_witness :
    from_bytes ehdrRec (List.replicate 10 0) = .error (.FromBytes 10 (some 52)) ∧
    ref_from_bytes ehdrRec 1 (List.replicate 10 0) =
      .error (.FromBytes 10 (some 52)) ∧
    mut_from_bytes ehdrRec 1 (List.replicate 10 0) =
      .error (.FromBytes 10 (some 52)) ∧
    from_bytes_with_elems ehdrRec (List.replicate 10 0) 2 =
      .error (.FromBytes 10 (some 104)) ∧
    ref_from_bytes_with_elems ehdrRec 1 (List.replicate 10 0) 2 =
      .error (.FromBytes 10 (some 104)) ∧
    mut_from_bytes_with_elems ehdrRec 1 (List.replicate 10 0) 2 =
      .error (.FromBytes 10 (some 104)) :=
  c4_short_input_size_mismatch ehdrRec 1 2 (List.replicate 10 0)
    (by decide) (by decide)

/-- C2 (failing evaluation): on the concrete 308-byte PBP container
`pbpInput` (preamble length P = 40, image length L = 260, trailing-asset
length T = 8) with a compressor stub producing a 10-byte stream, the
pipeline succeeds but returns a buffer of 354 = (336 + 10) + 8 bytes, not
the claimed P + (336 + 10) + T = 394: the reassembly writes the preamble at
cursor position 0, overwriting the first P bytes of the header + payload
region instead of prepending (the source comment says the preamble is to be
inserted).  The image-offset field of the result still reads 40 only
because the preamble is copied verbatim over the buffer head. -/
theorem c2_pbp_reassembly_failing :
    (compress_impl gzipTen rndZero none none pbpInput).map
        (fun r => (r.1.length, (r.1.drop 32).take 4)) =
      .ok (354, le32 40) ∧
    (354 : Nat) ≠ 40 + (336 + 10) + 8 := by
  exact ⟨by decide, by decide⟩

/-- C3 (failing evaluation): on `pbpInput` (image offset 40, trailing-asset
offset 300, so the embedded-image byte range has length 260), classification
records offset 40 and image length 260, yet the byte range handed to the
compressor has length 220: the source uses the image length as the range
end (`exec_offset..exec_size`), truncating the range for every container
with a non-zero preamble.  The probing compressor records the length of the
range it received as its 1-byte output, which lands at offset 336 of the
result. -/
theorem c3_compressed_range_failing :
    classifyExec pbpInput = .ok ⟨.Pbp, 40, 260⟩ ∧
    (compress_impl gzipLenProbe rndZero none none pbpInput).map
        (fun r => r.1.getD 336 0) = .ok 220 ∧
    (220 : Nat) ≠ 260 := by
  exact ⟨by decide, by decide, by decide⟩

/-- C5 counterexample: on `prxShMask` no loadable segment has differing
addresses, and the `.rodata.sceModuleInfo` section header carries file
offset 0x80000000 + 240 = 2147483888.  The claim says this file offset
gives the metadata offset, but the locator reads the record at
40-bit-masked position 240 ≠ 2147483888: the mask is applied to the
section-located offset as well, not only to a segment's physical address. -/
theorem c5_section_offset_mask_counterexample :
    classifyExec prxShMask = .ok ⟨.UserPrx, 0, 312⟩ ∧
    find_module_info_phdr prxShMask 0 = .ok none ∧
    (find_segment prxShMask 0 rodataSceModuleInfoName).map
        (fun s => s.map Elf32Shdr.sh_offset) = .ok (some 2147483888) ∧
    (locateModInfo prxShMask ⟨.UserPrx, 0, 312⟩).map
        (fun l => (l.mod_info_off, l.mod_info_start)) = .ok (2147483888, 240) ∧
    (240 : Nat) ≠ 0 + 2147483888 := by
  exact ⟨by decide, by decide, by decide, by decide, by decide⟩

/-- C6 counterexample: after reassembling `pbpInput` (original image offset
40, original trailing-asset offset 300) with a 10-byte compressed stream,
the image-offset field (bytes 32..36) still holds its original value 40,
while the trailing-asset-offset field (bytes 36..40) was changed from 300
to 40 + 10 = 50: the one patched field is the trailing-asset offset, not
the image offset, so the claim misidentifies the patched field. -/
theorem c6_patched_field_counterexample :
    (pbpInput.drop 32).take 4 = le32 40 ∧
    (pbpInput.drop 36).take 4 = le32 300 ∧
    (compress_impl gzipTen rndZero none none pbpInput).map
        (fun r => ((r.1.drop 32).take 4, (r.1.drop 36).take 4)) =
      .ok (le32 40, le32 50) ∧
    le32 50 ≠ le32 300 := by
  exact ⟨by decide, by decide, by decide, by decide⟩

/-- C9 counterexample: `prxBssX` has sections named `.bssX` and `.strtab`
and none named exactly `.bss` (witnessed by the source's own exact
nul-terminated name lookup `find_segment` returning no match for `.bss`),
yet compression succeeds — and the uninitialized-data-size field (bytes
56..60 of the output header) is filled with the size 256 of the `.bssX`
section: the scan compares only the first four name bytes, a prefix match. -/
theorem c9_exact_bss_counterexample :
    find_segment prxBssX 0 bssBytes = .ok none ∧
    (compress_impl gzipConst3 rndZero none none prxBssX).map
        (fun r => (r.2, (r.1.drop 56).take 4)) =
      .ok (.UserPrx, le32 256) ∧
    compress_impl gzipConst3 rndZero none none prxBssX ≠
      .error .BssNotFound := by
  exact ⟨by decide, by decide, by decide⟩

/-- C7: for an input whose module-metadata record has been located (both
discovery strategies ran, the resolution produced an offset, the record
parsed) and that passed the kernel-package check, the locator stage fails
with the mixed-privileges error if and only if the privilege signal derived
by the locator (top bit of the matching segment's physical address;
non-privileged when located by section name, which is what `isKernelOf`
computes) disagrees — in either direction — with the kernel-mode bit of the
record's attribute bitmask. -/
theorem c7_mixed_privileges_iff (exec : List Nat) (c : ClassifyOut)
    (p? : Option Elf32Phdr) (s? : Option Elf32Shdr) (moff : Nat)
    (mi : SceModuleInfo)
    (hp : find_module_info_phdr exec c.exec_offset = .ok p?)
    (hs : find_segment exec c.exec_offset rodataSceModuleInfoName = .ok s?)
    (hkp : ¬ (isKernelOf p? = true ∧ c.kind.is_pbp = true))
    (hoff : modInfoOffOf p? s? = .ok moff)
    (hmi : parseModInfoAt exec (c.exec_offset + (moff &&& 0x7FFFFFFF)) = .ok mi) :
    locateModInfo exec c = .error .MixedPrivileges ↔
      isKernelOf p? ≠ attrContains mi.mod_attr KernelMode := by
  have hkp' : (isKernelOf p? && c.kind.is_pbp) = false := by
    cases hb : isKernelOf p? <;> cases hpb : c.kind.is_pbp <;> simp_all
  simp only [locateModInfo, Bind.bind, Except.bind, hp, hs, hkp', hoff, hmi]
  cases hk : isKernelOf p? <;>
    cases ha : attrContains mi.mod_attr KernelMode <;>
    simp [throw, throwThe, MonadExceptOf.throw, pure, Except.pure]

/-- C7 witness: `prxMixed` has a matching segment with physical address
0x80000000 + 180 (privileged) while the metadata attribute bitmask is 0
(non-privileged), and the locator stage indeed fails with the
mixed-privileges error. -/
theorem c7_mixed_privileges_iff_witness :
    locateModInfo prxMixed ⟨.UserPrx, 0, 252⟩ = .error .MixedPrivileges :=
  (c7_mixed_privileges_iff prxMixed ⟨.UserPrx, 0, 252⟩
    (some ⟨1, 0, 256, 2147483828, 80, 96, 5, 16⟩) none 2147483828
    ⟨0, 1, 1, [84, 69, 83, 84, 77, 79, 68] ++ List.replicate 20 0, 0, 0, 0, 0, 0, 0⟩
    (by decide) (by decide) (by decide) (by decide) (by decide)).mpr
    (by decide)

/-- The first-match loop of `find_module_info_phdr` computes `List.find?`
of its matching predicate. -/
theorem findLoadableDiff_eq_find (ps : List Elf32Phdr) :
    findLoadableDiff ps =
      ps.find? fun p => decide (p.p_type = 1 ∧ p.p_vaddr ≠ p.p_paddr) := by
  induction ps with
  | nil => rfl
  | cons p rest ih =>
    by_cases hp : p.p_type = 1 ∧ p.p_vaddr ≠ p.p_paddr
    · simp [findLoadableDiff, hp, List.find?_cons_of_pos]
    · simp only [findLoadableDiff, if_neg hp, ih]
      rw [List.find?_cons_of_neg]
      simpa using hp

/-- C5 (amended): the metadata-offset resolution policy.  The segment
strategy returns the first loadable (type 1) program header whose virtual
and physical addresses differ.  If a segment match exists, its physical
address is the metadata offset, masked with 0x7FFFFFFF (top bit cleared)
before use as a read position, and its top bit is the privilege signal;
otherwise a `.rodata.sceModuleInfo` section match gives its file offset,
which is likewise masked with 0x7FFFFFFF before use (the amendment: the
claim states the mask only for the segment case), with the privilege signal
non-privileged; if neither strategy matches, the locator fails with the
no-module-metadata error. -/
theorem c5_locator_resolution_amended (exec : List Nat) (c : ClassifyOut)
    (eh : Elf32Ehdr) (phdrs : List Elf32Phdr) (s? : Option Elf32Shdr)
    (he : ehdrAt exec c.exec_offset = .ok eh)
    (hph : phdrTable exec c.exec_offset eh.e_phnum = .ok phdrs)
    (hs : find_segment exec c.exec_offset rodataSceModuleInfoName = .ok s?) :
    find_module_info_phdr exec c.exec_offset =
      .ok (phdrs.find? fun p => decide (p.p_type = 1 ∧ p.p_vaddr ≠ p.p_paddr)) ∧
    (∀ p,
      (phdrs.find? fun q => decide (q.p_type = 1 ∧ q.p_vaddr ≠ q.p_paddr)) = some p →
      ∀ l, locateModInfo exec c = .ok l →
        l.mod_info_off = p.p_paddr ∧
        l.mod_info_start = c.exec_offset + (p.p_paddr &&& 0x7FFFFFFF) ∧
        l.is_kernel = (p.p_paddr &&& 0x80000000 != 0)) ∧
    ((phdrs.find? fun q => decide (q.p_type = 1 ∧ q.p_vaddr ≠ q.p_paddr)) = none →
      (∀ s, s? = some s →
        ∀ l, locateModInfo exec c = .ok l →
          l.mod_info_off = s.sh_offset ∧
          l.mod_info_start = c.exec_offset + (s.sh_offset &&& 0x7FFFFFFF) ∧
          l.is_kernel = false) ∧
      (s? = none → locateModInfo exec c = .error .NoModuleInfo)) := by
  have hfmp : find_module_info_phdr exec c.exec_offset =
      .ok (phdrs.find? fun p => decide (p.p_type = 1 ∧ p.p_vaddr ≠ p.p_paddr)) := by
    simp only [find_module_info_phdr, Bind.bind, Except.bind, he, hph,
      findLoadableDiff_eq_find, pure, Except.pure]
  refine ⟨hfmp, ?_, ?_⟩
  · intro p hP l hl
    by_cases hb : (isKernelOf (some p) && c.kind.is_pbp) = true
    · have herr : locateModInfo exec c = .error .KernelPbp := by
        simp only [locateModInfo, Bind.bind, Except.bind, hfmp, hs, hP, hb,
          if_true, throw, throwThe, MonadExceptOf.throw]
      rw [herr] at hl
      exact absurd hl (by simp)
    · rw [Bool.not_eq_true] at hb
      cases hmi : parseModInfoAt exec
          (c.exec_offset + (p.p_paddr &&& 0x7FFFFFFF)) with
      | error e =>
        have herr : locateModInfo exec c = .error e := by
          simp only [locateModInfo, Bind.bind, Except.bind, hfmp, hs, hP, hb,
            Bool.false_eq_true, if_false, modInfoOffOf, hmi, throw, throwThe,
            MonadExceptOf.throw, pure, Except.pure]
        rw [herr] at hl
        exact absurd hl (by simp)
      | ok mi =>
        by_cases hmx : ((isKernelOf (some p) &&
            !attrContains mi.mod_attr KernelMode) ||
            (!(isKernelOf (some p)) && attrContains mi.mod_attr KernelMode)) = true
        · have herr : locateModInfo exec c = .error .MixedPrivileges := by
            simp only [locateModInfo, Bind.bind, Except.bind, hfmp, hs, hP, hb,
              Bool.false_eq_true, if_false, modInfoOffOf, hmi, hmx, if_true,
              throw, throwThe, MonadExceptOf.throw, pure, Except.pure]
          rw [herr] at hl
          exact absurd hl (by simp)
        · rw [Bool.not_eq_true] at hmx
          have hok : locateModInfo exec c =
              .ok ⟨if isKernelOf (some p) then ExecutableKind.KernelPrx else c.kind,
                   p.p_paddr, c.exec_offset + (p.p_paddr &&& 0x7FFFFFFF), mi,
                   isKernelOf (some p)⟩ := by
            simp only [locateModInfo, Bind.bind, Except.bind, hfmp, hs, hP, hb,
              Bool.false_eq_true, if_false, modInfoOffOf, hmi, hmx,
              throw, throwThe, MonadExceptOf.throw, pure, Except.pure]
          rw [hok] at hl
          obtain rfl : _ = l := Except.ok.inj hl
          exact ⟨rfl, rfl, rfl⟩
  · intro hP
    constructor
    · intro s hsv l hl
      subst hsv
      cases hmi : parseModInfoAt exec
          (c.exec_offset + (s.sh_offset &&& 0x7FFFFFFF)) with
      | error e =>
        have herr : locateModInfo exec c = .error e := by
          simp only [locateModInfo, Bind.bind, Except.bind, hfmp, hs, hP,
            isKernelOf, Bool.false_and, Bool.false_eq_true, if_false,
            modInfoOffOf, hmi, throw, throwThe, MonadExceptOf.throw, pure,
            Except.pure]
        rw [herr] at hl
        exact absurd hl (by simp)
      | ok mi =>
        by_cases hmx : attrContains mi.mod_attr KernelMode = true
        · have herr : locateModInfo exec c = .error .MixedPrivileges := by
            simp only [locateModInfo, Bind.bind, Except.bind, hfmp, hs, hP,
              isKernelOf, Bool.false_and, Bool.false_eq_true, if_false,
              modInfoOffOf, hmi, hmx, throw, throwThe, MonadExceptOf.throw,
              pure, Except.pure, Bool.not_false, Bool.true_and, Bool.false_or,
              if_true]
          rw [herr] at hl
          exact absurd hl (by simp)
        · rw [Bool.not_eq_true] at hmx
          have hok : locateModInfo exec c =
              .ok ⟨c.kind, s.sh_offset,
                   c.exec_offset + (s.sh_offset &&& 0x7FFFFFFF), mi, false⟩ := by
            simp only [locateModInfo, Bind.bind, Except.bind, hfmp, hs, hP,
              isKernelOf, Bool.false_and, Bool.false_eq_true, if_false,
              modInfoOffOf, hmi, hmx, throw, throwThe, MonadExceptOf.throw,
              pure, Except.pure, Bool.not_false, Bool.true_and, Bool.false_or,
              Bool.or_false]
          rw [hok] at hl
          obtain rfl : _ = l := Except.ok.inj hl
          exact ⟨rfl, rfl, rfl⟩
    · intro hsv
      subst hsv
      simp only [locateModInfo, Bind.bind, Except.bind, hfmp, hs, hP,
        isKernelOf, Bool.false_and, Bool.false_eq_true, if_false,
        modInfoOffOf, throw, throwThe, MonadExceptOf.throw, pure, Except.pure]

/-- C5 witness: on `prxInput` the first (and only) loadable segment with
differing addresses has physical address 180, and the locator output reads
the record at offset 180 with a non-privileged signal. -/
theorem c5_locator_resolution_amended_witness :
    prxLoc.mod_info_off = 180 ∧ prxLoc.mod_info_start = 180 ∧
      prxLoc.is_kernel = false := by
  obtain ⟨h1, h2, h3⟩ := (c5_locator_resolution_amended prxInput prxCls
      (Elf32Ehdr.decode prxInput) [⟨1, 0, 256, 180, 80, 96, 5, 16⟩] none
      (by decide) (by decide) (by decide)).2.1
    ⟨1, 0, 256, 180, 80, 96, 5, 16⟩ (by decide) prxLoc (by decide)
  exact ⟨h1, by rw [h2]; decide, by rw [h3]; decide⟩

/-- C9 (amended): when every section's 4-byte name window is readable, the
`.bss` scan of `read_segments_bss_info` stores the size of the first section
whose name's first four bytes are `.bss` — a 4-byte prefix comparison, so a
name merely beginning with `.bss` also matches — into the
uninitialized-data-size field, and fails with the zero-data-size
(`BssNotFound`) error exactly when no section's name begins with those four
bytes. -/
theorem c9_bss_prefix_amended (exec : List Nat) (strtab_offset : Nat)
    (shdrs : List Elf32Shdr) (h : PspHeader)
    (hall : ∀ s ∈ shdrs,
      (getRange exec (strtab_offset + s.sh_name)
        (strtab_offset + s.sh_name + 4)).isSome) :
    findBss exec strtab_offset shdrs h =
      match shdrs.find? (fun s => decide
          (getRange exec (strtab_offset + s.sh_name)
            (strtab_offset + s.sh_name + 4) = some bssBytes)) with
      | some s => .ok { h with bss_size := s.sh_size }
      | none => .error .BssNotFound := by
  induction shdrs with
  | nil => simp [findBss, throw, throwThe, MonadExceptOf.throw, List.find?]
  | cons s rest ih =>
    obtain ⟨w, hw⟩ := Option.isSome_iff_exists.mp (hall s (by simp))
    by_cases hmatch : w = bssBytes
    · subst hmatch
      rw [List.find?_cons_of_pos _ (by simp [hw])]
      simp [findBss, Bind.bind, Except.bind, hw, okOr, pure, Except.pure]
    · rw [List.find?_cons_of_neg _ (by simp [hw, hmatch])]
      have hrec := ih (fun x hx => hall x (by simp [hx]))
      simp only [findBss, Bind.bind, Except.bind, hw, okOr]
      rw [if_neg hmatch]
      exact hrec

/-- C9 witness: on `prxBssX`, with string table at offset 164, the scan over
its two sections accepts the first one (named `.bssX`, 4-byte window
`.bss`) and stores its size 256. -/
theorem c9_bss_prefix_amended_witness :
    findBss prxBssX 164 shdrsBssX PspHeader.default =
      .ok { PspHeader.default with bss_size := 256 } := by
  rw [c9_bss_prefix_amended prxBssX 164 shdrsBssX PspHeader.default (by decide)]
  decide

/-- Inversion for a successful `Except` bind. -/
theorem except_bind_ok {α β : Type} {x : Except Err α} {f : α → Except Err β}
    {v : β} (h : x >>= f = .ok v) : ∃ a, x = .ok a ∧ f a = .ok v := by
  cases hx : x with
  | error e => rw [hx] at h; exact absurd h (by simp [Bind.bind, Except.bind])
  | ok a =>
    rw [hx] at h
    exact ⟨a, rfl, by simpa [Bind.bind, Except.bind] using h⟩

/-- A successful `.bss` scan only changes the `bss_size` field. -/
theorem findBss_shape {exec : List Nat} {st : Nat} {shdrs : List Elf32Shdr}
    {h h' : PspHeader} (hr : findBss exec st shdrs h = .ok h') :
    h' = { h with bss_size := h'.bss_size } := by
  induction shdrs with
  | nil => exact absurd hr (by simp [findBss, throw, throwThe, MonadExceptOf.throw])
  | cons s rest ih =>
    simp only [findBss] at hr
    obtain ⟨w, hw, hr⟩ := except_bind_ok hr
    by_cases hmatch : w = bssBytes
    · rw [if_pos hmatch] at hr
      simp only [pure, Except.pure, Except.ok.injEq] at hr
      subst hr
      rfl
    · rw [if_neg hmatch] at hr
      exact ih hr

/-- The fill loop leaves array positions below its start index unchanged. -/
theorem fillSegAux_getD_lt (ps : List Elf32Phdr) (h : PspHeader) (k j : Nat)
    (hj : j < k) :
    (fillSegAux h k ps).seg_align.getD j 0 = h.seg_align.getD j 0 ∧
    (fillSegAux h k ps).seg_addr.getD j 0 = h.seg_addr.getD j 0 ∧
    (fillSegAux h k ps).seg_size.getD j 0 = h.seg_size.getD j 0 := by
  induction ps generalizing h k with
  | nil => exact ⟨rfl, rfl, rfl⟩
  | cons p rest ih =>
    have hjk : k ≠ j := by omega
    refine ⟨((ih _ (k + 1) (by omega)).1).trans ?_,
            ((ih _ (k + 1) (by omega)).2.1).trans ?_,
            ((ih _ (k + 1) (by omega)).2.2).trans ?_⟩ <;>
      simp [List.getD, List.getElem?_set_ne hjk]

/-- The fill loop stores `p_align` (truncated to 16 bits), `p_vaddr` and
`p_memsz` of the `i`-th of the given headers at array position `k + i`. -/
theorem fillSegAux_getD (ps : List Elf32Phdr) (h : PspHeader) (k i : Nat)
    (hi : i < ps.length)
    (ha : k + ps.length ≤ h.seg_align.length)
    (hb : k + ps.length ≤ h.seg_addr.length)
    (hc : k + ps.length ≤ h.seg_size.length) :
    (fillSegAux h k ps).seg_align.getD (k + i) 0 =
      (ps.getD i ⟨0, 0, 0, 0, 0, 0, 0, 0⟩).p_align % 65536 ∧
    (fillSegAux h k ps).seg_addr.getD (k + i) 0 =
      (ps.getD i ⟨0, 0, 0, 0, 0, 0, 0, 0⟩).p_vaddr ∧
    (fillSegAux h k ps).seg_size.getD (k + i) 0 =
      (ps.getD i ⟨0, 0, 0, 0, 0, 0, 0, 0⟩).p_memsz := by
  induction ps generalizing h k i with
  | nil => exact absurd hi (by simp)
  | cons p rest ih =>
    simp only [List.length_cons] at ha hb hc
    cases i with
    | zero =>
      have hka : k < h.seg_align.length := by omega
      have hkb : k < h.seg_addr.length := by omega
      have hkc : k < h.seg_size.length := by omega
      refine ⟨((fillSegAux_getD_lt rest _ (k + 1) (k + 0) (by omega)).1).trans ?_,
              ((fillSegAux_getD_lt rest _ (k + 1) (k + 0) (by omega)).2.1).trans ?_,
              ((fillSegAux_getD_lt rest _ (k + 1) (k + 0) (by omega)).2.2).trans ?_⟩ <;>
        simp [List.getD, List.getElem?_set_self', List.getElem?_eq_getElem,
          hka, hkb, hkc]
    | succ j =>
      have hi' : j < rest.length := by simp at hi; omega
      have hrw : k + (j + 1) = (k + 1) + j := by omega
      rw [hrw, List.getD_cons_succ]
      refine ⟨(ih _ (k + 1) j hi' ?_ ?_ ?_).1,
              (ih _ (k + 1) j hi' ?_ ?_ ?_).2.1,
              (ih _ (k + 1) j hi' ?_ ?_ ?_).2.2⟩ <;>
        simp only [List.length_set] <;> omega

/-- Inversion of a successful `read_segments_bss_info`: the program headers
parsed with the header's segment count fill the segment arrays, and the
rest of the call only sets `bss_size`. -/
theorem read_segments_spec {exec : List Nat} {off : Nat} {h h' : PspHeader}
    (hr : read_segments_bss_info exec off h = .ok h') :
    ∃ ps, phdrTable exec off h.num_segments = .ok ps ∧
      h' = { fillSegArrays h ps with bss_size := h'.bss_size } := by
  simp only [read_segments_bss_info] at hr
  obtain ⟨eh, heh, hr⟩ := except_bind_ok hr
  obtain ⟨ps, hps, hr⟩ := except_bind_ok hr
  obtain ⟨shdrs, hsh, hr⟩ := except_bind_ok hr
  obtain ⟨strx, hstrx, hr⟩ := except_bind_ok hr
  exact ⟨ps, hps, findBss_shape hr⟩

/-- C8: for an input reaching the segment-count check (classification,
embedded-header parse and locator all succeeded), a file-header segment
count of 0 or more than 4 makes the whole pipeline fail with the
no-segments error — no output buffer (and hence no serialized header) is
produced; and for inputs whose `read_segments_bss_info` succeeds, the
per-segment alignment/address/size arrays are populated from exactly the
first `num_segments` program headers, in header order. -/
theorem c8_segment_count_policy :
    (∀ (gzip : List Nat → List Nat) (rnd : Nat → Nat) (pt ot : Option Nat)
       (exec : List Nat) (c : ClassifyOut) (eh : Elf32Ehdr) (l : LocateOut),
       classifyExec exec = .ok c →
       parseEmbeddedEhdr exec c = .ok eh →
       locateModInfo exec c = .ok l →
       (eh.e_phnum = 0 ∨ 4 < eh.e_phnum) →
       compress_impl gzip rnd pt ot exec = .error .NoSegments) ∧
    (∀ (exec : List Nat) (off : Nat) (h h' : PspHeader) (ps : List Elf32Phdr),
       phdrTable exec off h.num_segments = .ok ps →
       read_segments_bss_info exec off h = .ok h' →
       ps.length ≤ h.seg_align.length →
       ps.length ≤ h.seg_addr.length →
       ps.length ≤ h.seg_size.length →
       ∀ i, i < ps.length →
         h'.seg_align.getD i 0 =
           (ps.getD i ⟨0, 0, 0, 0, 0, 0, 0, 0⟩).p_align % 65536 ∧
         h'.seg_addr.getD i 0 = (ps.getD i ⟨0, 0, 0, 0, 0, 0, 0, 0⟩).p_vaddr ∧
         h'.seg_size.getD i 0 = (ps.getD i ⟨0, 0, 0, 0, 0, 0, 0, 0⟩).p_memsz) := by
  constructor
  · intro gzip rnd pt ot exec c eh l hc hp hl hn
    have hbuild : buildPspHeader exec c eh l = .error .NoSegments := by
      cases hphn : eh.e_phnum with
      | zero =>
        simp only [buildPspHeader, Bind.bind, Except.bind, hphn, throw,
          throwThe, MonadExceptOf.throw]
      | succ m =>
        have h4 : 4 < m + 1 := by omega
        simp only [buildPspHeader, Bind.bind, Except.bind, hphn, throw,
          throwThe, MonadExceptOf.throw, if_pos h4]
    simp only [compress_impl, Bind.bind, Except.bind, hc, hp, hl, hbuild]
  · intro exec off h h' ps hps hr ha hb hc i hi
    obtain ⟨ps', hps', hshape⟩ := read_segments_spec hr
    rw [hps] at hps'
    obtain rfl : ps = ps' := Except.ok.inj hps'
    have e1 : h'.seg_align = (fillSegArrays h ps).seg_align := by rw [hshape]
    have e2 : h'.seg_addr = (fillSegArrays h ps).seg_addr := by rw [hshape]
    have e3 : h'.seg_size = (fillSegArrays h ps).seg_size := by rw [hshape]
    have hmain := fillSegAux_getD ps h 0 i hi (by omega) (by omega) (by omega)
    rw [e1, e2, e3]
    simpa [fillSegArrays] using hmain

/-- C8 witness: the pipeline rejects `prxPh0` (segment count 0) and
`prxPh5` (segment count 5) with the no-segments error, and on `prxInput`
(one segment with alignment 16, virtual address 256, memory size 96) the
segment arrays receive exactly those values at position 0. -/
theorem c8_segment_count_policy_witness :
    compress_impl gzipConst3 rndZero none none prxPh0 = .error .NoSegments ∧
    compress_impl gzipConst3 rndZero none none prxPh5 = .error .NoSegments ∧
    c8SegHdr.seg_align.getD 0 0 = 16 ∧
    c8SegHdr.seg_addr.getD 0 0 = 256 ∧
    c8SegHdr.seg_size.getD 0 0 = 96 := by
  have hb := c8_segment_count_policy.2 prxInput 0 c8H0 c8SegHdr
    [⟨1, 0, 256, 180, 80, 96, 5, 16⟩] (by decide) (by decide) (by decide)
    (by decide) (by decide) 0 (by decide)
  exact ⟨c8_segment_count_policy.1 gzipConst3 rndZero none none prxPh0
      ⟨.UserPrx, 0, 312⟩ (Elf32Ehdr.decode prxPh0)
      (((locateModInfo prxPh0 ⟨.UserPrx, 0, 312⟩).toOption).getD dfltLocateOut)
      (by decide) (by decide) (by decide) (Or.inl (by decide)),
    c8_segment_count_policy.1 gzipConst3 rndZero none none prxPh5
      ⟨.UserPrx, 0, 440⟩ (Elf32Ehdr.decode prxPh5)
      (((locateModInfo prxPh5 ⟨.UserPrx, 0, 440⟩).toOption).getD dfltLocateOut)
      (by decide) (by decide) (by decide) (Or.inr (by decide)),
    hb.1, hb.2.1, hb.2.2⟩

/-- A successful `okOr` means the option was `some`. -/
theorem okOr_ok {o : Option α} {e : Err} {a : α} (h : okOr o e = .ok a) :
    o = some a := by
  cases o with
  | none => exact absurd h (by simp [okOr])
  | some b => simpa [okOr] using h

/-- Characterization of a successful `getRange`. -/
theorem getRange_eq_some {l : List Nat} {a b : Nat} {s : List Nat}
    (h : getRange l a b = some s) :
    a ≤ b ∧ b ≤ l.length ∧ s = (l.drop a).take (b - a) := by
  rw [getRange] at h
  split at h
  · next hc => exact ⟨hc.1, hc.2, (Option.some.inj h).symm⟩
  · exact absurd h (by simp)

/-- A cursor overwrite at or past position `n` leaves the first `n` bytes
unchanged. -/
theorem take_cursorWrite_of_le (buf : List Nat) (pos n : Nat) (data : List Nat)
    (hn : n ≤ pos) (hp : pos ≤ buf.length) :
    (cursorWrite buf pos data).take n = buf.take n := by
  rw [cursorWrite, if_pos hp, List.append_assoc, List.take_append_eq_append_take]
  have h1 : (buf.take pos).length = pos := by rw [List.length_take]; omega
  rw [h1, Nat.sub_eq_zero_of_le hn, List.take_zero, List.append_nil,
    List.take_take, Nat.min_eq_left hn]

/-- Taking at most the left part of an append. -/
theorem take_append_of_le {α : Type} {a b : List α} {n : Nat}
    (h : n ≤ a.length) : (a ++ b).take n = a.take n := by
  rw [List.take_append_eq_append_take, Nat.sub_eq_zero_of_le h,
    List.take_zero, List.append_nil]

/-- Dropping exactly the left part of an append. -/
theorem drop_append_of_len {α : Type} (a b : List α) (n : Nat)
    (h : a.length = n) : (a ++ b).drop n = b := by
  rw [← h, List.drop_left]

/-- Shape of the PBP back half of `assembleOutput`: writing the preamble at
cursor position 0 and then the 4 patch bytes at position 36 leaves bytes
0..36 equal to the preamble's and puts the patch at bytes 36..40. -/
theorem pbp_patch_shape (b1 pre : List Nat) (v : Nat)
    (hpre40 : 40 ≤ pre.length) :
    (cursorWrite (cursorWrite b1 0 pre) 36 (le32 v)).take 36 = pre.take 36 ∧
    ((cursorWrite (cursorWrite b1 0 pre) 36 (le32 v)).drop 36).take 4 =
      le32 v := by
  have hb2 : cursorWrite b1 0 pre = pre ++ b1.drop pre.length := by
    simp [cursorWrite]
  have hlen : 36 ≤ (pre ++ b1.drop pre.length).length := by
    rw [List.length_append]; omega
  have h36 : ((pre ++ b1.drop pre.length).take 36).length = 36 := by
    rw [List.length_take]; rw [List.length_append]; omega
  constructor
  · rw [hb2, take_cursorWrite_of_le _ 36 36 _ le_rfl hlen]
    exact take_append_of_le (by omega)
  · rw [hb2, cursorWrite, if_pos hlen, List.append_assoc,
      drop_append_of_len _ _ _ h36, take_append_of_le (by simp [le32])]
    rfl

/-- C6 (amended): after package reassembly, the container's
trailing-asset-offset field (bytes 36..40) is the one patched field, set to
the image offset plus the compressed-stream length (as a `u32`); the
container's other header fields — the magic, version, the six asset
offsets, and in particular the image-offset field (bytes 32..36) — are
byte-for-byte unchanged from the original container (the amendment: the
claim names the image-offset field as the patched one, but that field is
copied unchanged; the patched field is the trailing-asset offset). -/
theorem c6_patch_amended (gzip : List Nat → List Nat) (rnd : Nat → Nat)
    (pt ot : Option Nat) (exec : List Nat) (c : ClassifyOut) (l : LocateOut)
    (h : PspHeader) (execW es buf : List Nat) (kd : ExecutableKind)
    (hk : l.kind = .Pbp)
    (h40 : 40 ≤ c.exec_offset)
    (hms : c.exec_offset ≤ l.mod_info_start)
    (hw : writeBackModInfo exec l h.attr = .ok execW)
    (hs : getRange execW c.exec_offset c.exec_size = some es)
    (ha : assembleOutput gzip rnd pt ot exec c l h = .ok (buf, kd)) :
    buf.take 36 = exec.take 36 ∧
    (buf.drop 36).take 4 =
      le32 ((c.exec_offset + (gzip es).length) % 4294967296) := by
  have hwb : l.mod_info_start + 72 ≤ exec.length ∧
      execW = cursorWrite exec l.mod_info_start
        ({ l.mod_info with mod_attr := h.attr } : SceModuleInfo).toBytes := by
    rw [writeBackModInfo] at hw
    split at hw
    · exact ⟨by assumption, (Except.ok.inj hw).symm⟩
    · exact absurd hw (by simp)
  obtain ⟨hmslen, hexecW⟩ := hwb
  have hW36 : execW.take 36 = exec.take 36 := by
    rw [hexecW]
    exact take_cursorWrite_of_le exec l.mod_info_start 36 _ (by omega) (by omega)
  simp only [assembleOutput] at ha
  obtain ⟨w, hw', ha⟩ := except_bind_ok ha
  rw [hw] at hw'
  obtain rfl : execW = w := Except.ok.inj hw'
  obtain ⟨es', hs', ha⟩ := except_bind_ok ha
  obtain rfl : es = es' := by
    have h2 := okOr_ok hs'
    rw [hs] at h2
    exact Option.some.inj h2
  rw [hk] at ha
  simp only [ExecutableKind.is_pbp, if_true] at ha
  obtain ⟨pre, hpre, ha⟩ := except_bind_ok ha
  obtain ⟨icons, hicons, ha⟩ := except_bind_ok ha
  obtain ⟨pb, hpb, ha⟩ := except_bind_ok ha
  simp only [pure, Except.pure, Except.ok.injEq, Prod.mk.injEq] at ha
  obtain ⟨hbuf, hkd⟩ := ha
  obtain ⟨h0off, hofflen, hpreval⟩ := getRange_eq_some (okOr_ok hpre)
  simp only [List.drop_zero, Nat.sub_zero] at hpreval
  have hprelen : pre.length = c.exec_offset := by
    rw [hpreval, List.length_take]
    omega
  rw [← hbuf]
  constructor
  · rw [(pbp_patch_shape _ pre _ (by omega)).1]
    rw [hpreval, List.take_take, Nat.min_eq_left (by omega)]
    exact hW36
  · exact (pbp_patch_shape _ pre _ (by omega)).2

/-- C6 witness: on `pbpInput` with the 10-byte compressor stub, the first
36 bytes of the reassembled buffer (magic, version, the six asset offsets,
and the image-offset field) equal the original container's, and the
trailing-asset-offset field holds 40 + 10 = 50. -/
theorem c6_patch_amended_witness :
    c6Buf.take 36 = pbpInput.take 36 ∧ (c6Buf.drop 36).take 4 = le32 50 :=
  c6_patch_amended gzipTen rndZero none none pbpInput pbpCls pbpLoc
    pbpHdrB pbpExecW pbpSlice c6Buf .Pbp (by decide) (by decide) (by decide)
    (by decide) (by decide) (by decide)

/-- `padBytes` always produces exactly `n` bytes. -/
theorem length_padBytes (n : Nat) (l : List Nat) : (padBytes n l).length = n := by
  simp [padBytes]
  omega

/-- The serialized output header is exactly 336 bytes long for any field
contents. -/
theorem toBytes_length (h : PspHeader) : (PspHeader.toBytes h).length = 336 := by
  simp only [PspHeader.toBytes, List.length_append, length_padBytes, le16,
    le32, words16x4, words32x4, words32x5, words32x2, List.length_cons,
    List.length_nil]

/-- The first four serialized header bytes are the little-endian signature. -/
theorem toBytes_take4 (h : PspHeader) :
    (PspHeader.toBytes h).take 4 = le32 h.signature := by
  rw [PspHeader.toBytes]
  simp only [List.append_assoc]
  rw [take_append_of_le (by simp [le32])]
  rfl

/-- Writing the 336-byte header into the reserved zero region yields header
bytes followed by the compressed stream. -/
theorem cursorWrite_header (comp : List Nat) (h : PspHeader) :
    cursorWrite (List.replicate 336 0 ++ comp) 0 (PspHeader.toBytes h) =
      PspHeader.toBytes h ++ comp := by
  rw [cursorWrite, if_pos (Nat.zero_le _)]
  simp only [List.take_zero, List.nil_append, Nat.zero_add]
  rw [toBytes_length, drop_append_of_len _ _ _ (by simp)]

/-- Mode derivation never changes the signature field. -/
theorem set_decript_mode_signature (h : PspHeader) (b : Bool) :
    (set_decript_mode h b).signature = h.signature := by
  rw [set_decript_mode]
  split_ifs <;> rfl

/-- The segment fill loop never changes the signature field. -/
theorem fillSegAux_signature (ps : List Elf32Phdr) (h : PspHeader) (k : Nat) :
    (fillSegAux h k ps).signature = h.signature := by
  induction ps generalizing h k with
  | nil => rfl
  | cons p rest ih => exact ih _ (k + 1)

/-- A successful header synthesis produces a header whose signature is the
output magic 0x5053507E. -/
theorem buildPspHeader_signature {exec : List Nat} {c : ClassifyOut}
    {eh : Elf32Ehdr} {l : LocateOut} {h : PspHeader}
    (hb : buildPspHeader exec c eh l = .ok h) :
    h.signature = 0x5053507E := by
  simp only [buildPspHeader] at hb
  split at hb
  · exact absurd hb
      (by simp [throw, throwThe, MonadExceptOf.throw, Bind.bind, Except.bind])
  · by_cases h4 : 4 < eh.e_phnum
    · rw [if_pos h4] at hb
      exact absurd hb
        (by simp [throw, throwThe, MonadExceptOf.throw, Bind.bind, Except.bind])
    · rw [if_neg h4] at hb
      obtain ⟨n, hn, hb⟩ := except_bind_ok hb
      obtain ⟨hseg, hsegr, hb⟩ := except_bind_ok hb
      simp only [pure, Except.pure, Except.ok.injEq] at hb
      subst hb
      rw [set_decript_mode_signature]
      obtain ⟨ps, hps, hshape⟩ := read_segments_spec hsegr
      rw [hshape]
      show (fillSegArrays _ ps).signature = _
      rw [fillSegArrays, fillSegAux_signature]
      rfl

/-- A buffer that starts with the little-endian output signature is
rejected as already packed. -/
theorem classify_already_packed (buf : List Nat) (h4 : 4 ≤ buf.length)
    (hsig : buf.take 4 = [126, 80, 83, 80]) :
    classifyExec buf = .error .AlreadyPacked := by
  have hmagic : readLE buf 0 4 = PSP_HEADER_MAGIC := by
    rw [readLE, List.drop_zero, hsig]
    decide
  have hlt : ¬ (buf.length < 4) := by omega
  simp [classifyExec, Bind.bind, Except.bind, hmagic, hlt, throw, throwThe,
    MonadExceptOf.throw, pure, Except.pure]

/-- C10: for every standalone (non-container) input that compresses
successfully, the first four bytes of the output buffer are the
little-endian output signature 0x5053507E — the output header is serialized
at offset 0 with its fixed signature — and running the compression pipeline
again on that output (under any compressor, random source and tags) fails
with the already-packed error. -/
theorem c10_signature_and_repack (gzip : List Nat → List Nat) (rnd : Nat → Nat)
    (pt ot : Option Nat) (exec buf : List Nat) (kind : ExecutableKind)
    (hc : compress_impl gzip rnd pt ot exec = .ok (buf, kind))
    (hk : kind.is_pbp = false) :
    buf.take 4 = [126, 80, 83, 80] ∧
    ∀ (g2 : List Nat → List Nat) (r2 : Nat → Nat) (p2 o2 : Option Nat),
      compress_impl g2 r2 p2 o2 buf = .error .AlreadyPacked := by
  simp only [compress_impl] at hc
  obtain ⟨c, hcl, hc⟩ := except_bind_ok hc
  obtain ⟨eh, heh, hc⟩ := except_bind_ok hc
  obtain ⟨l, hloc, hc⟩ := except_bind_ok hc
  obtain ⟨h, hbuild, hc⟩ := except_bind_ok hc
  simp only [assembleOutput] at hc
  obtain ⟨execW, hw, hc⟩ := except_bind_ok hc
  obtain ⟨es, hes, hc⟩ := except_bind_ok hc
  by_cases hpbp : l.kind.is_pbp = true
  · rw [if_pos hpbp] at hc
    obtain ⟨pre, hpre, hc⟩ := except_bind_ok hc
    obtain ⟨icons, hicons, hc⟩ := except_bind_ok hc
    obtain ⟨pb, hpb, hc⟩ := except_bind_ok hc
    simp only [pure, Except.pure, Except.ok.injEq, Prod.mk.injEq] at hc
    rw [← hc.2] at hk
    rw [hpbp] at hk
    exact absurd hk (by simp)
  · rw [if_neg hpbp] at hc
    simp only [pure, Except.pure, Except.ok.injEq, Prod.mk.injEq] at hc
    obtain ⟨hbuf, hkd⟩ := hc
    rw [← hbuf, cursorWrite_header]
    have hsig := buildPspHeader_signature hbuild
    have h1 : (PspHeader.toBytes
        { h with
          tag := pt.getD (default_psp_tag_handler l.kind),
          oe_tag := ot.getD (default_oe_tag_handler l.kind),
          key_data0 := (List.range 48).map fun i => rnd i % 256,
          key_data1 := (List.range 16).map fun i => rnd (48 + i) % 256,
          key_data3 := (List.range 28).map fun i => rnd (64 + i) % 256,
          comp_size := (gzip es).length % 4294967296,
          psp_size := (336 + (gzip es).length) % 4294967296 } ++ gzip es).take 4 =
        [126, 80, 83, 80] := by
      rw [take_append_of_le (by rw [toBytes_length]; omega), toBytes_take4]
      show le32 h.signature = _
      rw [hsig]
      decide
    refine ⟨h1, ?_⟩
    intro g2 r2 p2 o2
    have h4 : 4 ≤ (PspHeader.toBytes
        { h with
          tag := pt.getD (default_psp_tag_handler l.kind),
          oe_tag := ot.getD (default_oe_tag_handler l.kind),
          key_data0 := (List.range 48).map fun i => rnd i % 256,
          key_data1 := (List.range 16).map fun i => rnd (48 + i) % 256,
          key_data3 := (List.range 28).map fun i => rnd (64 + i) % 256,
          comp_size := (gzip es).length % 4294967296,
          psp_size := (336 + (gzip es).length) % 4294967296 } ++ gzip es).length := by
      rw [List.length_append, toBytes_length]
      omega
    have hcl2 := classify_already_packed _ h4 h1
    simp only [compress_impl, Bind.bind, Except.bind, hcl2]

/-- C10 witness: the compressed output of `prxInput` starts with the
little-endian signature bytes, and compressing that output again fails with
the already-packed error. -/
theorem c10_signature_and_repack_witness :
    c10Buf.take 4 = [126, 80, 83, 80] ∧
    compress_impl gzipTen rndZero none none c10Buf = .error .AlreadyPacked := by
  have h := c10_signature_and_repack gzipConst3 rndZero none none prxInput
    c10Buf .UserPrx (by decide) (by decide)
  exact ⟨h.1, h.2 gzipTen rndZero none none⟩
